import Mathlib

/-!
# CANOPI optimization engine: a shallow embedding

This file embeds, in Lean 4 over exact rationals, the core numerical code of
the CANOPI capacity-expansion prototype:

* `models/network.py` — `Network`, incidence matrices, susceptances with
  impedance feedback, `identify_non_islanding_branches`;
* `algorithms/cycle_basis.py` — `compute_fundamental_cycle_basis`,
  `compute_minimal_cycle_basis`, `assign_cycle_orientations` (the inner
  Gurobi integer program is abstracted as an oracle returning a feasible
  optimal point of the IP, whose feasible set is embedded);
* `algorithms/transmission_correction.py` —
  `compute_power_transfer_matrices`, `transmission_correction_rtep`,
  `iterative_transmission_correction`;
* `algorithms/operational_subproblem.py` — the LP that
  `OperationalSubproblem.solve` builds (its constraint families and
  objective as predicates over a primal assignment), and the PTDF/LODF
  computation of `OperationalSubproblem._compute_power_transfer_matrices`;
* `algorithms/bundle_method.py` — `BundleMethod.solve` with the per-scenario
  LP solves abstracted as an oracle of per-iteration outcomes;
* `solvers/gurobi_interface.py` — the status mapping of `GurobiSolver.solve`.

Conventions of the embedding:

* Python floats are embedded as `ℚ` (exact arithmetic; IEEE-754 rounding is
  not modelled).  The one exception is the Euclidean norm in
  `iterative_transmission_correction`, which needs a square root and is
  embedded over `ℝ`.
* numpy 2-D arrays are embedded as row-major `List (List ℚ)`.
* A Python function that can raise an uncaught exception on some inputs is
  embedded with an `Option` result; `none` models the raise.
* `np.linalg.inv` is embedded as the exact cofactor inverse, and the
  `np.linalg.LinAlgError` it raises on a singular argument corresponds to a
  vanishing determinant.
-/

/-! ## List-matrix helpers (numpy arrays as `List (List ℚ)`) -/

/-- Entry `v[i]` of a vector, `0` outside the range (indices used by the
source are always in range at the inputs considered). -/
def vget (v : List ℚ) (i : ℕ) : ℚ := v.getD i 0

/-- Entry `M[i][j]` of a row-major matrix. -/
def mget (M : List (List ℚ)) (i j : ℕ) : ℚ := (M.getD i []).getD j 0

/-- Row `i` of a matrix. -/
def mrow (M : List (List ℚ)) (i : ℕ) : List ℚ := M.getD i []

/-- Column `j` of a matrix. -/
def mcol (M : List (List ℚ)) (j : ℕ) : List ℚ := M.map (fun row => row.getD j 0)

/-- Dot product of two vectors (`u @ v` for equal-length numpy vectors). -/
def dotL (u v : List ℚ) : ℚ := (List.zipWith (· * ·) u v).sum

/-- Sum of a vector's entries (`np.sum`). -/
def sumL (v : List ℚ) : ℚ := v.sum

/-- Number of columns of a row-major matrix. -/
def ncols (M : List (List ℚ)) : ℕ := (M.headD []).length

/-- Matrix transpose. -/
def transposeL (M : List (List ℚ)) : List (List ℚ) :=
  (List.range (ncols M)).map (fun j => mcol M j)

/-- Matrix product (`A @ B` for conforming 2-D numpy arrays). -/
def matMul (A B : List (List ℚ)) : List (List ℚ) :=
  A.map (fun row => (List.range (ncols B)).map (fun j => dotL row (mcol B j)))

/-- Square diagonal matrix from a vector (`np.diag`). -/
def diagL (v : List ℚ) : List (List ℚ) :=
  (List.range v.length).map (fun i =>
    (List.range v.length).map (fun j => if i = j then vget v i else 0))

/-- All-zero matrix (`np.zeros((r, c))`). -/
def zerosL (r c : ℕ) : List (List ℚ) := List.replicate r (List.replicate c 0)

/-- The minor of `M` with row `i` and column `j` removed. -/
def minorL (M : List (List ℚ)) (i j : ℕ) : List (List ℚ) :=
  (M.eraseIdx i).map (fun row => row.eraseIdx j)

/-- Determinant of a square list-matrix by Laplace expansion along the first
row.  (For the empty matrix the determinant is `1`, matching `np.linalg`.) -/
def detL (M : List (List ℚ)) : ℚ :=
  match M with
  | [] => 1
  | r :: rest =>
    ((List.range r.length).map
      (fun j => (-1 : ℚ) ^ j * r.getD j 0 * detL (rest.map (fun row => row.eraseIdx j)))).sum
termination_by M.length
decreasing_by simp [List.length_map]

/-- Exact inverse of a square list-matrix via the cofactor formula; embeds
`np.linalg.inv` on a non-singular argument. -/
def invL (M : List (List ℚ)) : List (List ℚ) :=
  (List.range M.length).map (fun i =>
    (List.range M.length).map (fun j =>
      ((-1 : ℚ) ^ (i + j) * detL (minorL M j i)) / detL M))

/-- `np.clip(v, lo, hi)`. -/
def clipQ (v lo hi : ℚ) : ℚ := min (max v lo) hi

/-- Decreasing (stable) sort, embedding `sorted(l, reverse=True)`. -/
def sortDesc (l : List ℚ) : List ℚ := l.mergeSort (fun a b => decide (b ≤ a))

/-! ## `models/network.py` -/

/-- `Branch` (an AC line): orientation, nominal capacity `w_br`, nominal
impedance `χ₀`.  Fields not used by the algorithms (ids, voltage, length)
are omitted. -/
structure Branch where
  from_node : ℕ
  to_node : ℕ
  capacity_mw : ℚ
  impedance : ℚ
deriving DecidableEq, Repr

/-- `Network`: node count and AC branch list.  (HVDC lines do not enter any
of the embedded algorithms; the incidence matrix `A_dc` of the single
instance that needs one is written out directly.) -/
structure Network where
  n : ℕ
  branches : List Branch
deriving DecidableEq, Repr

/-- Number of AC branches `b`. -/
def Network.b (net : Network) : ℕ := net.branches.length

/-- The branch incidence matrix `A_br ∈ {-1,0,1}^{n×b}`: column `j` has `-1`
at the from-bus row and `+1` at the to-bus row (`Network._build_branch_incidence_matrix`;
the `+1` write happens second, so it wins when from = to). -/
def Network.A_br (net : Network) : List (List ℚ) :=
  (List.range net.n).map (fun i =>
    net.branches.map (fun br =>
      if br.to_node = i then 1 else if br.from_node = i then -1 else 0))

/-- `Network.get_branch_capacities`: the vector `w_br`. -/
def Network.get_branch_capacities (net : Network) : List ℚ :=
  net.branches.map (·.capacity_mw)

/-- `Network.get_susceptances` with impedance feedback: susceptance of branch
`j` is `1 / (χ₀_j · w_j / (w_j + x_br_j))`. -/
def Network.get_susceptances (net : Network) (x_br : List ℚ) : List ℚ :=
  (List.range net.b).map (fun j =>
    let br := net.branches.getD j ⟨0, 0, 0, 0⟩
    1 / (br.impedance * br.capacity_mw / (br.capacity_mw + vget x_br j)))

/-- `Network.identify_non_islanding_branches`: the source is a stub that
returns every branch index (`list(range(self.b))`), with a TODO noting the
graph-connectivity check is unimplemented. -/
def Network.identify_non_islanding_branches (net : Network) : List ℕ :=
  List.range net.b

/-! ### Graph connectivity (modelled from the spec)

Modelled from the spec: the repository has no connectivity test (the TODO in
`identify_non_islanding_branches`), so the notion "removing a branch
disconnects the graph" used to state bridge-ness follows the spec's words:
a bridge is "an edge whose removal disconnects the graph". -/

/-- One step of reachability closure: add every node joined by a kept branch
to a visited node. -/
def reachStep (net : Network) (removed : Option ℕ) (visited : List ℕ) : List ℕ :=
  visited ++ ((List.range net.b).filterMap (fun j =>
    if removed = some j then none
    else
      let br := net.branches.getD j ⟨0, 0, 0, 0⟩
      if br.from_node ∈ visited ∧ br.to_node ∉ visited then some br.to_node
      else if br.to_node ∈ visited ∧ br.from_node ∉ visited then some br.from_node
      else none))

/-- Nodes reachable from node `0` after removing the given branch (iterating
the closure `n` times reaches a fixed point). -/
def reachable (net : Network) (removed : Option ℕ) : List ℕ :=
  Nat.rec [0] (fun _ acc => reachStep net removed acc) net.n

/-- The graph with the given branch removed is connected. -/
def connectedWithout (net : Network) (removed : Option ℕ) : Bool :=
  decide (∀ i < net.n, i ∈ reachable net removed)

/-- Modelled from the spec: branch `j` is a bridge when the network is
connected but removing `j` disconnects it. -/
def Network.isBridge (net : Network) (j : ℕ) : Bool :=
  connectedWithout net none && !connectedWithout net (some j)

/-! ## `algorithms/transmission_correction.py` -/

/-- The reduced incidence matrix `A = network.A_br[1:, :]` (the slack-bus row,
row 0, dropped). -/
def Network.A_reduced (net : Network) : List (List ℚ) := net.A_br.drop 1

/-- `compute_power_transfer_matrices(network, x_br)` (Equations 13a-13b of
the source's docstring).  The source forms `A.T @ B @ A` with
`A = A_br[1:, :]` of shape `(n-1, b)`; that product is dimensionally valid
only when `n - 1 = b`, and on every other network (every meshed one) numpy
raises a `ValueError` that the surrounding `try` does not catch (it catches
only `np.linalg.LinAlgError`), so the call crashes: embedded as `none`.
When `n - 1 = b` and the (square) matrix `AᵀBA` is singular,
`np.linalg.inv` raises `LinAlgError`, the handler returns all-zero `PTDF`
and `LODF`, and the LODF loop is skipped. -/
def compute_power_transfer_matrices (net : Network) (x_br : List ℚ) :
    Option (List (List ℚ) × List (List ℚ)) :=
  if net.n = net.b + 1 then
    let B := diagL (net.get_susceptances x_br)
    let A := net.A_reduced
    let ATBA := matMul (matMul (transposeL A) B) A
    if detL ATBA = 0 then
      some (zerosL net.b (net.n - 1), zerosL net.b net.b)
    else
      let PTDF := matMul (matMul B A) (invL ATBA)
      let LODF := (List.range net.b).map (fun i =>
        (List.range net.b).map (fun j =>
          if i = j then 0
          else
            let num := dotL (mrow PTDF i) (mcol A j)
            let den := 1 - dotL (mrow PTDF j) (mcol A j)
            if 1/1000000 < |den| then num / den else 0))
      some (PTDF, LODF)
  else none

/-- Python list indexing `l[k]` for an `int` index: negative indices wrap
from the end. -/
def pyGet (l : List ℚ) (k : ℤ) : ℚ :=
  if 0 ≤ k then l.getD k.toNat 0 else l.getD (l.length - (-k).toNat) 0

/-- The per-branch data of `transmission_correction_rtep` (its lines 2-7):
base-case violations `δ_base` and contingency violations `δ_cont` of branch
`i`, collected over every scenario, period, and outaged branch
`j ≠ i` with `j` in `identify_non_islanding_branches()`. -/
def rtepBranchDeltas (net : Network) (p_ni_star : List (List (List ℚ)))
    (PTDF LODF : List (List ℚ)) (eta_c : ℚ) (i : ℕ) : List ℚ × List ℚ :=
  let w_i := (net.branches.getD i ⟨0, 0, 0, 0⟩).capacity_mw
  let base := p_ni_star.flatMap (fun p_ni =>
    p_ni.map (fun row =>
      let p_br_i := dotL (mrow PTDF i) (row.drop 1)
      max (|p_br_i| - w_i) 0))
  let cont := p_ni_star.flatMap (fun p_ni =>
    p_ni.flatMap (fun row =>
      let p_br_i := dotL (mrow PTDF i) (row.drop 1)
      ((List.range net.b).filter
          (fun j => j ≠ i ∧ j ∈ net.identify_non_islanding_branches)).map
        (fun j =>
          let p_br_j := dotL (mrow PTDF j) (row.drop 1)
          let p_brc := p_br_i + mget LODF i j * p_br_j
          max (|p_brc| - eta_c * w_i) 0 / eta_c)))
  (base, cont)

/-- `transmission_correction_rtep` (Algorithm 2 / function `E` for RTEP).
`x_non_br` is accepted and ignored by the source, so it is dropped here;
`c_br = none` embeds the Python default `None` (replaced by `1e6` per
branch).  `none` as a result embeds the uncaught `ValueError` raised inside
`compute_power_transfer_matrices` on meshed networks. -/
def transmission_correction_rtep (net : Network) (p_ni_star : List (List (List ℚ)))
    (x_br_hat : List ℚ) (eta_c : ℚ) (c_br : Option (List ℚ)) (c_vio : ℚ) :
    Option (List ℚ) :=
  let c_br := c_br.getD (List.replicate net.b 1000000)
  match compute_power_transfer_matrices net x_br_hat with
  | none => none
  | some (PTDF, LODF) =>
    some ((List.range net.b).map (fun i =>
      let (delta_base, delta_cont) := rtepBranchDeltas net p_ni_star PTDF LODF eta_c i
      -- Line 8: x_br_lb_i = max(delta_base) if delta_base else 0.0
      let x_br_lb_i := delta_base.foldr max 0
      -- Lines 9-10: the ratio r_i and the selected contingency magnitude;
      -- the source indexes the descending sort at int(np.ceil(r_i)), a
      -- 0-based position, and yields 0.0 when that position is past the end.
      let r_i := vget c_br i / (eta_c * c_vio)
      let x_opt_i :=
        if delta_cont ≠ [] then
          let sorted := sortDesc delta_cont
          let r_i_int := ⌈r_i⌉
          if r_i_int < (sorted.length : ℤ) then pyGet sorted r_i_int else 0
        else 0
      -- Line 11: x_br_max_i = capacity * 2.0; np.clip(max(lb, opt), 0, max)
      let x_br_max_i := (net.branches.getD i ⟨0, 0, 0, 0⟩).capacity_mw * 2
      clipQ (max x_br_lb_i x_opt_i) 0 x_br_max_i))

/-- Modelled from the spec: the `k`-th largest element of a list (1-indexed,
`0` when the list has fewer than `k` elements), as in "The optimum is the
⌈c_br[i] / (η_c · c_vio)⌉-th largest δ". -/
def kthLargest (k : ℤ) (l : List ℚ) : ℚ :=
  if 1 ≤ k ∧ k ≤ (l.length : ℤ) then (sortDesc l).getD (k - 1).toNat 0 else 0

/-- Modelled from the spec: the per-branch optimum of §4.7 step 3 — the
⌈c_br[i] / (η_c · c_vio)⌉-th largest contingency violation magnitude,
projected into `[x_lb[i], x_br_max[i]]`.  It shares with the source the
power-transfer kernel, the violation magnitudes `δ`, the base-case lower
bound `x_lb`, and the bound `x_br_max[i]` (the source's `capacity * 2`),
and differs only in the selection rule. -/
def transmission_correction_rtep_spec (net : Network)
    (p_ni_star : List (List (List ℚ))) (x_br_hat : List ℚ) (eta_c : ℚ)
    (c_br : Option (List ℚ)) (c_vio : ℚ) : Option (List ℚ) :=
  let c_br := c_br.getD (List.replicate net.b 1000000)
  match compute_power_transfer_matrices net x_br_hat with
  | none => none
  | some (PTDF, LODF) =>
    some ((List.range net.b).map (fun i =>
      let (delta_base, delta_cont) := rtepBranchDeltas net p_ni_star PTDF LODF eta_c i
      let x_lb_i := delta_base.foldr max 0
      let r_i := vget c_br i / (eta_c * c_vio)
      let x_opt_i := kthLargest ⌈r_i⌉ delta_cont
      let x_br_max_i := (net.branches.getD i ⟨0, 0, 0, 0⟩).capacity_mw * 2
      min (max x_opt_i x_lb_i) x_br_max_i))

/-- `np.linalg.norm`: the Euclidean norm, over `ℝ` because of the square
root. -/
noncomputable def l2norm (v : List ℚ) : ℝ :=
  Real.sqrt ((v.map (fun q => ((q : ℝ)) ^ 2)).sum)

/-- The convergence measure of `iterative_transmission_correction`:
`‖x_new − x_hat‖ / (1 + ‖x_hat‖)`. -/
noncomputable def relChange (x_new x_hat : List ℚ) : ℝ :=
  l2norm (List.zipWith (· - ·) x_new x_hat) / (1 + l2norm x_hat)

/-- Default `max_iterations` of `iterative_transmission_correction`. -/
def iterative_correction_default_max_iterations : ℕ := 10

/-- Default `tolerance` of `iterative_transmission_correction`. -/
def iterative_correction_default_tolerance : ℚ := 1/1000

open Classical in
/-- `iterative_transmission_correction` (the CORR fixed point): repeat
`x_tilde := transmission_correction_rtep(x_hat)`; if
`‖x_tilde − x_hat‖/(1+‖x_hat‖) < tolerance` return `(x_tilde, True)`, else
set `x_hat := x_tilde`; after `max_iterations` iterations return
`(x_hat, False)`.  The inner call passes the rtep defaults
(`eta_c = 1`, `c_br = None`, `c_vio = 2000`), exactly as the source does.
`none` embeds a crash of the inner call. -/
noncomputable def iterative_transmission_correction (net : Network)
    (p_ni_star : List (List (List ℚ))) (x_br_hat : List ℚ)
    (max_iterations : ℕ) (tolerance : ℚ) : Option (List ℚ × Bool) :=
  match max_iterations with
  | 0 => some (x_br_hat, false)
  | fuel + 1 =>
    match transmission_correction_rtep net p_ni_star x_br_hat 1 none 2000 with
    | none => none
    | some x_br_tilde =>
      if relChange x_br_tilde x_br_hat < (tolerance : ℝ) then
        some (x_br_tilde, true)
      else
        iterative_transmission_correction net p_ni_star x_br_tilde fuel tolerance

/-! ## `algorithms/cycle_basis.py` -/

/-- First row index where column `j` of the incidence matrix equals `val`
(`np.where(incidence_matrix[:, j] == val)[0][0]`); `none` embeds the
`IndexError` when no such row exists. -/
def findNodeWith (A : List (List ℚ)) (j : ℕ) (val : ℚ) : Option ℕ :=
  (mcol A j).findIdx? (fun x => x = val)

/-- The `(from_node, to_node)` endpoints of every column, built upfront as in
`compute_fundamental_cycle_basis` lines 159-162. -/
def edgesOf (A : List (List ℚ)) (b : ℕ) : Option (List (ℕ × ℕ)) :=
  (List.range b).mapM (fun j => do
    let f ← findNodeWith A j (-1)
    let t ← findNodeWith A j 1
    pure (f, t))

/-- The scan of the edge list inside the DFS loop, from position `idx`: the
first edge, in list order, that is not yet a tree edge and leads from `node`
to an unvisited endpoint (the `from`-direction test comes first per edge, as
in the source).  Returns the edge index and the newly visited endpoint. -/
def pickEdgeFrom (visited tree : List ℕ) (node : ℕ) :
    List (ℕ × ℕ) → ℕ → Option (ℕ × ℕ)
  | [], _ => none
  | (f, t) :: rest, idx =>
    if idx ∈ tree then pickEdgeFrom visited tree node rest (idx + 1)
    else if f = node ∧ t ∉ visited then some (idx, t)
    else if t = node ∧ f ∉ visited then some (idx, f)
    else pickEdgeFrom visited tree node rest (idx + 1)

/-- The scan of the full edge list (Python's `for ... in edges` with `break`
on the first usable edge). -/
def pickEdge (edges : List (ℕ × ℕ)) (visited tree : List ℕ) (node : ℕ) :
    Option (ℕ × ℕ) :=
  pickEdgeFrom visited tree node edges 0

/-- The DFS spanning-tree `while` loop of `compute_fundamental_cycle_basis`
(lines 164-190).  The Python stack keeps its top at the end; here the head of
`stack` is the top.  `non_tree_edges` is the empty list throughout the loop
(the source only fills it afterwards), so only membership in `tree` is
tested.  The loop runs at most `2·n + 2` times (each step pushes a newly
visited node or pops), so the supplied fuel never runs out; on exhaustion
the current tree is returned. -/
def spanningTreeLoop (n : ℕ) (edges : List (ℕ × ℕ)) :
    ℕ → List ℕ → List ℕ → List ℕ → List ℕ
  | 0, _, _, tree => tree
  | fuel + 1, visited, stack, tree =>
    match stack with
    | [] => tree
    | node :: rest =>
      if n - 1 ≤ tree.length then tree
      else
        match pickEdge edges visited tree node with
        | some (eidx, newNode) =>
          spanningTreeLoop n edges fuel (visited ++ [newNode])
            (newNode :: node :: rest) (tree ++ [eidx])
        | none => spanningTreeLoop n edges fuel visited rest tree

/-- `compute_fundamental_cycle_basis(incidence_matrix)`.  The source's DFS
collects a spanning tree, and the TODO on lines 199-201 leaves each
fundamental cycle as the single non-tree edge that should close it: row
`cycle_idx` has a lone `1` at that non-tree edge.  `none` embeds the
`IndexError` of the endpoint lookups or of writing more rows than
`n_c = b - n + 1`; a `ValueError` from `np.zeros` with negative `n_c` is
also `none`. -/
def compute_fundamental_cycle_basis (A : List (List ℚ)) : Option (List (List ℚ)) :=
  let n := A.length
  let b := ncols A
  let ncInt : ℤ := (b : ℤ) - (n : ℤ) + 1
  if ncInt < 0 then none
  else
    match edgesOf A b with
    | none => none
    | some edges =>
      let tree := spanningTreeLoop n edges (2 * n + 2 * b + 4) [0] [0] []
      let nonTree := (List.range b).filter (fun j => j ∉ tree)
      if ncInt.toNat < nonTree.length then none
      else
        some ((nonTree.map (fun e =>
            (List.range b).map (fun j => if j = e then (1 : ℚ) else 0)))
          ++ List.replicate (ncInt.toNat - nonTree.length) (List.replicate b 0))

/-- The feasible set of the integer program (26) solved by
`solve_shortest_cycle_ip`: `w ∈ {0,1}^{n_c}` with `w[κ̂] = 1`, `u ∈ ℤ^b`,
`v ∈ {0,1}^b`, and `Σ_κ C[κ,j]·w[κ] = 2·u[j] + v[j]` for every branch `j`.
The Gurobi solve itself is external; an oracle standing for it must return a
`v` that extends to a feasible point of this set (and an optimal one). -/
def ipFeasible (C : List (List ℚ)) (kappa_hat : ℕ)
    (w : List ℚ) (u : List ℤ) (v : List ℚ) : Prop :=
  let b := ncols C
  w.length = C.length ∧ (∀ x ∈ w, x = 0 ∨ x = 1) ∧
  u.length = b ∧ v.length = b ∧ (∀ x ∈ v, x = 0 ∨ x = 1) ∧
  vget w kappa_hat = 1 ∧
  ∀ j < b, dotL (mcol C j) w = 2 * (u.getD j 0 : ℚ) + vget v j

/-- The cycle-orientation inner `while` loop of `assign_cycle_orientations`
(lines 243-259): walk the remaining edges of the cycle from `current`,
assigning `+1` when traversal agrees with the reference orientation and `-1`
otherwise.  `remaining` is kept in increasing index order (CPython iterates
a set of small ints in that order).  When no remaining edge touches
`current` the Python loop never terminates; that (and a failed endpoint
lookup) is embedded as `none`. -/
def orientWalk (A : List (List ℚ)) :
    List ℕ → ℕ → List (ℕ × ℚ) → Option (List (ℕ × ℚ))
  | [], _, acc => some acc
  | remaining, current, acc =>
    match h : remaining.find? (fun e =>
        (findNodeWith A e (-1)).getD (A.length) = current ∨
        (findNodeWith A e 1).getD (A.length) = current) with
    | none => none
    | some e =>
      match findNodeWith A e (-1), findNodeWith A e 1 with
      | some ef, some et =>
        if ef = current then
          orientWalk A (remaining.erase e) et (acc ++ [(e, 1)])
        else
          orientWalk A (remaining.erase e) ef (acc ++ [(e, -1)])
      | _, _ => none
termination_by remaining _ _ => remaining.length
decreasing_by
  all_goals
    have hmem := List.mem_of_find?_eq_some h
    rw [List.length_erase_of_mem hmem]
    exact Nat.sub_lt (List.length_pos.mpr (List.ne_nil_of_mem hmem)) Nat.one_pos

/-- `assign_cycle_orientations(C_undirected, incidence_matrix)`: for each
cycle row, orient the first edge `+1` and walk the remaining edges from its
`to`-node.  A row with no edges stays all-zero. -/
def assign_cycle_orientations (C_und A : List (List ℚ)) :
    Option (List (List ℚ)) :=
  let b := ncols C_und
  C_und.mapM (fun row =>
    let cycle_edges := (List.range b).filter (fun j => decide ((0 : ℚ) < row.getD j 0))
    match cycle_edges with
    | [] => some (List.replicate b 0)
    | first_edge :: rest =>
      match findNodeWith A first_edge (-1), findNodeWith A first_edge 1 with
      | some _, some to_node =>
        match orientWalk A rest to_node [(first_edge, 1)] with
        | none => none
        | some assigns =>
          some ((List.range b).map (fun j =>
            match assigns.find? (fun p => p.1 = j) with
            | some p => p.2
            | none => 0))
      | _, _ => none)

/-- `compute_minimal_cycle_basis(incidence_matrix, initial_basis)` with the
Gurobi solve of `solve_shortest_cycle_ip` abstracted as `ipSolve` (which,
like the source, may return `none` on a solver failure; the improvement
step then keeps the current cycle).  The `assert C.shape == (n_c, b)` is
embedded as a shape guard (`none` = `AssertionError`). -/
def compute_minimal_cycle_basis (A : List (List ℚ))
    (initial_basis : Option (List (List ℚ)))
    (ipSolve : List (List ℚ) → ℕ → Option (List ℚ)) :
    Option (List (List ℚ)) :=
  let n := A.length
  let b := ncols A
  let ncInt : ℤ := (b : ℤ) - (n : ℤ) + 1
  match (match initial_basis with
         | none => compute_fundamental_cycle_basis A
         | some c => some c) with
  | none => none
  | some C =>
    if (C.length : ℤ) = ncInt ∧ C.all (fun row => row.length = b) then
      let C_und := C.map (fun row => row.map (fun x => |x|))
      let C_imp := (List.range C_und.length).foldl (fun Cacc kappa =>
        match ipSolve Cacc kappa with
        | some v_star =>
          if sumL v_star < sumL (Cacc.getD kappa []) then Cacc.set kappa v_star
          else Cacc
        | none => Cacc) C_und
      assign_cycle_orientations C_imp A
    else none

/-! ## `algorithms/bundle_method.py` -/

/-- `CapacityDecision`: the expansion decision `x = (x_g, x_es_p, x_es_e,
x_br, x_em)`. -/
structure CapacityDecision where
  x_g : List ℚ
  x_es_p : List ℚ
  x_es_e : List ℚ
  x_br : List ℚ
  x_em : List ℚ
deriving DecidableEq, Repr

/-- The dimensions `(G, S, b, |Ω|)` a `CapacityDecision.zeros` call takes. -/
structure CapacityDims where
  nG : ℕ
  nS : ℕ
  nB : ℕ
  nOmega : ℕ
deriving DecidableEq, Repr

/-- `CapacityDecision.zeros`. -/
def CapacityDecision.zeros (d : CapacityDims) : CapacityDecision :=
  ⟨List.replicate d.nG 0, List.replicate d.nS 0, List.replicate d.nS 0,
   List.replicate d.nB 0, List.replicate d.nOmega 0⟩

/-- The length of the concatenated zero subgradient built in
`_solve_subproblems` (`np.concatenate` of zeros like each component). -/
def CapacityDims.gdim (d : CapacityDims) : ℕ :=
  d.nG + d.nS + d.nS + d.nB + d.nOmega

/-- `InvestmentCosts`. -/
structure InvestmentCosts where
  c_g : List ℚ
  c_es_p : List ℚ
  c_es_e : List ℚ
  c_br : List ℚ
  c_em : List ℚ
deriving DecidableEq, Repr

/-- `InvestmentCosts.calculate_cost`: `c^T x`. -/
def InvestmentCosts.calculate_cost (c : InvestmentCosts) (x : CapacityDecision) : ℚ :=
  dotL c.c_g x.x_g + dotL c.c_es_p x.x_es_p + dotL c.c_es_e x.x_es_e +
  dotL c.c_br x.x_br + dotL c.c_em x.x_em

/-- The outcome of one scenario's LP solve inside `_solve_subproblems`
(the Gurobi solve is external; `optimal` carries the objective value). -/
inductive SubOutcome where
  | optimal (objVal : ℚ)
  | infeasible
deriving DecidableEq, Repr

/-- `BundleMethod._solve_subproblems(x_k, x_br_hat)`, with the per-scenario
LP solves replaced by their outcomes: returns `(theta_k, g_k, sigma_k)`.
On `optimal`, `theta` is the objective, the subgradient is the stubbed zero
vector (the source's TODO "Extract actual subgradient from LP duals"), and
`sigma` is `len(new_violations) * c_vio * 10.0`, which is `0` because
`_identify_violated_contingencies` is a stub returning the empty set (so the
contingency sets also never change).  On a non-optimal status, `theta` is
the constant `1e12`, the subgradient is the same zero vector, `sigma` is
`0`, and the loop continues with the next scenario. -/
def solve_subproblems (outcomes : List SubOutcome) (d : CapacityDims) :
    List ℚ × List (List ℚ) × List ℚ :=
  (outcomes.map (fun o =>
     match o with
     | .optimal v => v
     | .infeasible => 1000000000000),
   outcomes.map (fun o =>
     match o with
     | .optimal _ => List.replicate d.gdim 0
     | .infeasible => List.replicate d.gdim 0),
   outcomes.map (fun o =>
     match o with
     | .optimal _ => 0
     | .infeasible => 0))

/-- `BundleMethod._solve_master_problem`: the source is a stub returning
`0.0` (TODO "Build full LP with cutting planes"). -/
def solve_master_problem (_x : CapacityDecision) : ℚ := 0

/-- `BundleMethod._compute_analytic_center`: the source is a stub returning
`CapacityDecision.zeros(...)` (TODO "Implement full analytic center
calculation"). -/
def compute_analytic_center (d : CapacityDims) : CapacityDecision :=
  CapacityDecision.zeros d

/-- The observable result of `BundleMethod.solve`: the returned
`(x_star, U_k)`, the per-iteration records `(f_k, L_k, gap)` mirroring
`self.iterations`, the per-scenario cutting-plane lists, and whether the
loop left via the convergence `break`. -/
structure BundleRunResult where
  x_star : Option CapacityDecision
  U : Option ℚ
  history : List (ℚ × ℚ × ℚ)
  cuts : List (List (ℚ × List ℚ))
  converged : Bool
deriving DecidableEq, Repr

/-- The body of the `for k in range(1, max_iterations + 1)` loop of
`BundleMethod.solve`, with `fuel` the remaining iterations and `U = none`
embedding the initial `np.inf`.  Each iteration: solve the subproblems at
`x_k`, append each scenario's `(theta, g)` cut, compute
`f_k = c^T x_k + Σ_ω (theta_ω + sigma_ω)`, update `U_k = min(U_k, f_k)`
(taking the incumbent when `U_k == f_k`), take `L_k` from the stubbed
master problem, set `gap = (U_k − L_k)/U_k` if `U_k > 0` else `0`, record
the iteration, `break` when `gap < ε`, and otherwise continue from the
stubbed analytic center. -/
def bundleLoop (oracle : ℕ → List SubOutcome) (costs : InvestmentCosts)
    (d : CapacityDims) (eps : ℚ) :
    ℕ → ℕ → CapacityDecision → Option ℚ → Option CapacityDecision →
    List (ℚ × ℚ × ℚ) → List (List (ℚ × List ℚ)) → BundleRunResult
  | 0, _, _, U, x_star, hist, cuts => ⟨x_star, U, hist, cuts, false⟩
  | fuel + 1, k, x_k, U, x_star, hist, cuts =>
    let tgs := solve_subproblems (oracle k) d
    let theta := tgs.1
    let g := tgs.2.1
    let sigma := tgs.2.2
    let cuts' := List.zipWith (fun c p => c ++ [p]) cuts (theta.zip g)
    let f := costs.calculate_cost x_k + (List.zipWith (· + ·) theta sigma).sum
    let U' := match U with | none => f | some u => min u f
    let x_star' := if U' = f then some x_k else x_star
    let L := solve_master_problem x_k
    let gap := if 0 < U' then (U' - L) / U' else 0
    let hist' := hist ++ [(f, L, gap)]
    if gap < eps then ⟨x_star', some U', hist', cuts', true⟩
    else bundleLoop oracle costs d eps fuel (k + 1) (compute_analytic_center d)
      (some U') x_star' hist' cuts'

/-- `BundleMethod.solve`: bounds start at `U = np.inf` (and `L = 0`), the
first iterate is `CapacityDecision.zeros`, and the loop above runs for at
most `max_iterations` iterations. -/
def BundleMethod.solve (oracle : ℕ → List SubOutcome) (costs : InvestmentCosts)
    (d : CapacityDims) (eps : ℚ) (max_iterations : ℕ) : BundleRunResult :=
  bundleLoop oracle costs d eps max_iterations 1 (CapacityDecision.zeros d)
    none none [] (List.replicate d.nOmega [])

/-- Modelled from the spec: the relative gap `(U − L) / max(|U|, 1)` of the
claimed termination test. -/
def relativeGap_spec (U L : ℚ) : ℚ := (U - L) / max |U| 1

/-- The objective `f_k` the loop computes at iteration `k` (every iterate is
`CapacityDecision.zeros`, both initially and from the stubbed analytic
center). -/
def bundleIterObjective (oracle : ℕ → List SubOutcome) (costs : InvestmentCosts)
    (d : CapacityDims) (k : ℕ) : ℚ :=
  let tgs := solve_subproblems (oracle k) d
  costs.calculate_cost (CapacityDecision.zeros d) +
    (List.zipWith (· + ·) tgs.1 tgs.2.2).sum

/-- The running upper bound from `U0` after consuming objectives
`g 0, …, g i` (`U = min(U, f)` per iteration, from `np.inf` when
`U0 = none`). -/
def runMinFrom (U0 : Option ℚ) (g : ℕ → ℚ) : ℕ → ℚ
  | 0 => match U0 with | none => g 0 | some u => min u (g 0)
  | i + 1 => min (runMinFrom U0 g i) (g (i + 1))

/-- The gap the code computes after consuming `i + 1` iterations from `U0`:
`(U − L)/U` when `U > 0` (the stubbed master makes `L = 0`), else `0`. -/
def gapFrom (U0 : Option ℚ) (g : ℕ → ℚ) (i : ℕ) : ℚ :=
  let U := runMinFrom U0 g i
  if 0 < U then (U - 0) / U else 0

/-- The gap the code computes at iteration `k ≥ 1` of `BundleMethod.solve`. -/
def bundleGapCode (oracle : ℕ → List SubOutcome) (costs : InvestmentCosts)
    (d : CapacityDims) (k : ℕ) : ℚ :=
  gapFrom none (fun j => bundleIterObjective oracle costs d (1 + j)) (k - 1)

/-! ## `algorithms/operational_subproblem.py` -/

/-- `ScenarioData`: costs `c_g` (T×G), availabilities `a_g` (T×G), demand
`p_d` (T×D), load-shedding penalty `c_sh`, violation penalty `c_vio`. -/
structure ScenarioData where
  c_g : List (List ℚ)
  a_g : List (List ℚ)
  p_d : List (List ℚ)
  c_sh : ℚ
  c_vio : ℚ
deriving DecidableEq, Repr

/-- `OperationalParameters`. -/
structure OperationalParameters where
  w_g : List ℚ
  w_es_p : List ℚ
  w_es_e : List ℚ
  w_br : List ℚ
  R : List ℚ
  e : List ℚ
  A_g : List (List ℚ)
  A_es : List (List ℚ)
  A_d : List (List ℚ)
  eta : ℚ
  gamma_es : ℚ
  gamma_d : ℚ
  eta_c : ℚ
deriving DecidableEq, Repr

/-- `OperationalSubproblem._compute_power_transfer_matrices` (the in-class
copy of the kernel, run by `__init__` at `x_br_hat`).  It has the same
`A_reduced.T @ B @ A_reduced` product as the module-level kernel, so it
raises the same uncaught `ValueError` whenever `n - 1 ≠ b` (`none`); its
`except` branch differs in that it zeroes only the PTDF and still runs the
LODF loop, which then produces an all-zero LODF. -/
def OperationalSubproblem.computePTM (net : Network) (x_br_hat : List ℚ) :
    Option (List (List ℚ) × List (List ℚ)) :=
  if net.n = net.b + 1 then
    let B := diagL (net.get_susceptances x_br_hat)
    let A := net.A_reduced
    let ATBA := matMul (matMul (transposeL A) B) A
    let PTDF :=
      if detL ATBA = 0 then zerosL net.b (net.n - 1)
      else matMul (matMul B A) (invL ATBA)
    let LODF := (List.range net.b).map (fun i =>
      (List.range net.b).map (fun j =>
        if i = j then 0
        else
          let num := dotL (mrow PTDF i) (mcol A j)
          let den := 1 - dotL (mrow PTDF j) (mcol A j)
          if 1/1000000 < |den| then num / den else 0))
    some (PTDF, LODF)
  else none

/-- An `OperationalSubproblem` after `__init__`: the data plus the PTDF and
LODF matrices precomputed at the impedance-defining capacity `x_br_hat`. -/
structure OperationalSubproblem where
  net : Network
  params : OperationalParameters
  scenario : ScenarioData
  x_br_hat : List ℚ
  contingencies : List (ℕ × ℕ × ℕ)
  PTDF : List (List ℚ)
  LODF : List (List ℚ)
deriving DecidableEq, Repr

/-- `OperationalSubproblem.__init__`: store the data and precompute PTDF and
LODF at `x_br_hat`; `none` embeds the uncaught `ValueError` of the kernel
on a meshed network. -/
def OperationalSubproblem.init (net : Network) (params : OperationalParameters)
    (scenario : ScenarioData) (x_br_hat : List ℚ)
    (contingencies : List (ℕ × ℕ × ℕ)) : Option OperationalSubproblem :=
  match OperationalSubproblem.computePTM net x_br_hat with
  | none => none
  | some (ptdf, lodf) => some ⟨net, params, scenario, x_br_hat, contingencies, ptdf, lodf⟩

/-- Number of periods `T` (`scenario.c_g.shape[0]`). -/
def OperationalSubproblem.T (sub : OperationalSubproblem) : ℕ := sub.scenario.c_g.length

/-- Number of generators `G` (`scenario.c_g.shape[1]`). -/
def OperationalSubproblem.G (sub : OperationalSubproblem) : ℕ := ncols sub.scenario.c_g

/-- Number of storage devices `S` (`params.w_es_p.shape[0]`). -/
def OperationalSubproblem.S (sub : OperationalSubproblem) : ℕ := sub.params.w_es_p.length

/-- Number of loads `D` (`scenario.p_d.shape[1]`). -/
def OperationalSubproblem.D (sub : OperationalSubproblem) : ℕ := ncols sub.scenario.p_d

/-- A primal assignment to the LP's decision variables (β is the HVDC count
of the instance; `s_c` is indexed by contingency triples). -/
structure OpAssignment where
  p_g : ℕ → ℕ → ℚ
  r_g : ℕ → ℕ → ℚ
  p_es : ℕ → ℕ → ℚ
  p_chg : ℕ → ℕ → ℚ
  p_dis : ℕ → ℕ → ℚ
  r_dis : ℕ → ℕ → ℚ
  q : ℕ → ℕ → ℚ
  p_br : ℕ → ℕ → ℚ
  p_dc : ℕ → ℕ → ℚ
  p_sh : ℕ → ℕ → ℚ
  s_c : ℕ × ℕ × ℕ → ℚ

/-- The default (zero) lower bounds of `add_continuous_vars`: every variable
except `p_es`, `p_br` and `p_dc` (created with `lb=-GRB.INFINITY`) is
non-negative; each contingency slack is created with `lb=0`. -/
def OperationalSubproblem.varBounds (sub : OperationalSubproblem) (v : OpAssignment) : Prop :=
  (∀ t < sub.T, ∀ g < sub.G, 0 ≤ v.p_g t g ∧ 0 ≤ v.r_g t g) ∧
  (∀ t < sub.T, ∀ s < sub.S,
    0 ≤ v.p_chg t s ∧ 0 ≤ v.p_dis t s ∧ 0 ≤ v.r_dis t s ∧ 0 ≤ v.q t s) ∧
  (∀ t < sub.T, ∀ dd < sub.D, 0 ≤ v.p_sh t dd) ∧
  (∀ trip ∈ sub.contingencies, 0 ≤ v.s_c trip)

/-- The generation constraints (Eq. 3): capacity with reserve, ramping, and
the scenario emissions cap `Σ e·p_g ≤ x_em_omega`. -/
def OperationalSubproblem.genConstraints (sub : OperationalSubproblem)
    (x : CapacityDecision) (x_em_omega : ℚ) (v : OpAssignment) : Prop :=
  (∀ t < sub.T, ∀ g < sub.G,
    v.p_g t g + v.r_g t g ≤
      mget sub.scenario.a_g t g * (vget sub.params.w_g g + vget x.x_g g)) ∧
  (∀ t < sub.T, 0 < t → ∀ g < sub.G,
    -(vget sub.params.R g * (vget sub.params.w_g g + vget x.x_g g)) ≤
        v.p_g t g - v.p_g (t - 1) g ∧
      v.p_g t g - v.p_g (t - 1) g ≤
        vget sub.params.R g * (vget sub.params.w_g g + vget x.x_g g)) ∧
  ((List.range sub.T).map (fun t =>
      ((List.range sub.G).map (fun g => vget sub.params.e g * v.p_g t g)).sum)).sum
    ≤ x_em_omega

/-- The storage constraints (Eq. 4): net output identity, power limit, state
of charge bounds, dynamics, and terminal continuity. -/
def OperationalSubproblem.storageConstraints (sub : OperationalSubproblem)
    (x : CapacityDecision) (v : OpAssignment) : Prop :=
  (∀ t < sub.T, ∀ s < sub.S,
    v.p_es t s = v.p_dis t s - v.p_chg t s ∧
    v.p_chg t s + v.p_dis t s + v.r_dis t s ≤
      vget sub.params.w_es_p s + vget x.x_es_p s ∧
    v.q t s ≤ vget sub.params.w_es_e s + vget x.x_es_e s ∧
    v.r_dis t s ≤ v.q t s ∧
    v.q t s =
      (if t = 0 then
        sub.params.gamma_es * (vget sub.params.w_es_e s + vget x.x_es_e s)
       else v.q (t - 1) s)
        + v.p_chg t s * sub.params.eta - v.p_dis t s / sub.params.eta) ∧
  (∀ s < sub.S,
    v.q (sub.T - 1) s =
      sub.params.gamma_es * (vget sub.params.w_es_e s + vget x.x_es_e s))

/-- The system reserve constraint (Eq. 5). -/
def OperationalSubproblem.reserveConstraints (sub : OperationalSubproblem)
    (v : OpAssignment) : Prop :=
  ∀ t < sub.T,
    sub.params.gamma_d * ((List.range sub.D).map (fun dd => mget sub.scenario.p_d t dd)).sum ≤
      ((List.range sub.G).map (fun g => v.r_g t g)).sum +
        ((List.range sub.S).map (fun s => v.r_dis t s)).sum

/-- `_add_power_flow_constraints`: the source's TODO stub adds only the
base-case branch capacity limits `|p_br[t,j]| ≤ w_br[j] + x_br[j]` — no
nodal balance, no KVL, no PTDF coupling of flows to injections. -/
def OperationalSubproblem.powerFlowConstraints (sub : OperationalSubproblem)
    (x : CapacityDecision) (v : OpAssignment) : Prop :=
  ∀ t < sub.T, ∀ j < sub.net.b,
    v.p_br t j ≤ vget sub.params.w_br j + vget x.x_br j ∧
    -(vget sub.params.w_br j + vget x.x_br j) ≤ v.p_br t j

/-- The post-contingency flow of Eq. 12a,
`p_brc = p_br[t,i] + LODF[i,j]·p_br[t,j]`, with `sub.LODF` the matrix
precomputed at `x_br_hat` by `__init__` (not at the decision passed to
`solve`). -/
def OperationalSubproblem.postContingencyFlow (sub : OperationalSubproblem)
    (v : OpAssignment) (t i j : ℕ) : ℚ :=
  v.p_br t i + mget sub.LODF i j * v.p_br t j

/-- The pair of rows `_add_contingency_constraints` adds for one triple
`(t, i, j)` (Eq. 12b-12c):
`p_brc ≥ -η_c·(w_br[i]+x_br[i]) - s_c[t,i,j]` and
`p_brc ≤ η_c·(w_br[i]+x_br[i]) + s_c[t,i,j]`. -/
def OperationalSubproblem.contingencyRowPair (sub : OperationalSubproblem)
    (x : CapacityDecision) (v : OpAssignment) (t i j : ℕ) : Prop :=
  (-(sub.params.eta_c * (vget sub.params.w_br i + vget x.x_br i)) - v.s_c (t, i, j) ≤
      sub.postContingencyFlow v t i j) ∧
  sub.postContingencyFlow v t i j ≤
    sub.params.eta_c * (vget sub.params.w_br i + vget x.x_br i) + v.s_c (t, i, j)

/-- `_add_contingency_constraints` (Eq. 12): the row pair for every triple
in the contingency set. -/
def OperationalSubproblem.contingencyConstraints (sub : OperationalSubproblem)
    (x : CapacityDecision) (v : OpAssignment) : Prop :=
  ∀ trip ∈ sub.contingencies, sub.contingencyRowPair x v trip.1 trip.2.1 trip.2.2

/-- The full constraint set of the LP built by `OperationalSubproblem.solve`
(variable bounds plus every `addConstr` family; the contingency family is
added only when the set is non-empty, which the `∀ trip ∈` below captures
vacuously). -/
def OperationalSubproblem.feasible (sub : OperationalSubproblem)
    (x : CapacityDecision) (x_em_omega : ℚ) (v : OpAssignment) : Prop :=
  sub.varBounds v ∧ sub.genConstraints x x_em_omega v ∧
  sub.storageConstraints x v ∧ sub.reserveConstraints v ∧
  sub.powerFlowConstraints x v ∧ sub.contingencyConstraints x v

/-- The LP objective (Eq. 14): generation cost, load-shedding penalty, and
contingency-slack penalty. -/
def OperationalSubproblem.objective (sub : OperationalSubproblem) (v : OpAssignment) : ℚ :=
  ((List.range sub.T).map (fun t =>
    ((List.range sub.G).map (fun g => mget sub.scenario.c_g t g * v.p_g t g)).sum)).sum +
  ((List.range sub.T).map (fun t =>
    ((List.range sub.D).map (fun dd => sub.scenario.c_sh * v.p_sh t dd)).sum)).sum +
  (sub.contingencies.map (fun trip => sub.scenario.c_vio * v.s_c trip)).sum

/-- Modelled from the spec: the nodal balance residual at period `t` and bus
`i`, `A_g·p_g + A_es·p_es + A_d·(p_sh − p_d) − (A·p_br + A_dc·p_dc)`.  The
LP the source builds contains no such constraint (the stub above), so the
equation itself follows the spec's words; `A_dc` is supplied explicitly
(`n × β`). -/
def nodalBalanceResidual (sub : OperationalSubproblem) (A_dc : List (List ℚ))
    (v : OpAssignment) (t i : ℕ) : ℚ :=
  ((List.range sub.G).map (fun g => mget sub.params.A_g i g * v.p_g t g)).sum +
  ((List.range sub.S).map (fun s => mget sub.params.A_es i s * v.p_es t s)).sum +
  ((List.range sub.D).map (fun dd =>
    mget sub.params.A_d i dd * (v.p_sh t dd - mget sub.scenario.p_d t dd))).sum -
  (((List.range sub.net.b).map (fun j => mget sub.net.A_br i j * v.p_br t j)).sum +
   ((List.range (ncols A_dc)).map (fun l => mget A_dc i l * v.p_dc t l)).sum)

/-- Modelled from the spec: "all nodal balances hold to within 10⁻⁶ MW". -/
def nodalBalanceOk (sub : OperationalSubproblem) (A_dc : List (List ℚ))
    (v : OpAssignment) : Prop :=
  ∀ t < sub.T, ∀ i < sub.net.n, |nodalBalanceResidual sub A_dc v t i| ≤ 1/1000000

/-! ## `solvers/gurobi_interface.py` -/

/-- The Gurobi status codes used by `GurobiSolver.solve`'s `status_map`. -/
def GRB_OPTIMAL : ℕ := 2
/-- `GRB.INFEASIBLE`. -/
def GRB_INFEASIBLE : ℕ := 3
/-- `GRB.INF_OR_UNBD`. -/
def GRB_INF_OR_UNBD : ℕ := 4
/-- `GRB.UNBOUNDED`. -/
def GRB_UNBOUNDED : ℕ := 5
/-- `GRB.ITERATION_LIMIT`. -/
def GRB_ITERATION_LIMIT : ℕ := 7
/-- `GRB.TIME_LIMIT`. -/
def GRB_TIME_LIMIT : ℕ := 9

/-- The `status_map.get(self.model.status, "unknown")` lookup. -/
def statusMap (code : ℕ) : String :=
  if code = GRB_OPTIMAL then "optimal"
  else if code = GRB_INFEASIBLE then "infeasible"
  else if code = GRB_UNBOUNDED then "unbounded"
  else if code = GRB_INF_OR_UNBD then "inf_or_unbd"
  else if code = GRB_TIME_LIMIT then "time_limit"
  else if code = GRB_ITERATION_LIMIT then "iteration_limit"
  else "unknown"

/-- `SolverResult`: the solution dictionary is a name-to-array map. -/
structure SolverResult where
  status : String
  objective_value : Option ℚ
  solution : Option (List (String × List ℚ))
  solve_time : ℚ
  iterations : Option ℚ
  gap : Option ℚ
deriving DecidableEq, Repr

/-- `GurobiSolver.solve` after `self.model.optimize()` returned, as a
function of the model's reported state: status code, objective value,
extracted solution, MIP flag and gap, runtime and iteration count.  When the
mapped status is `"optimal"` the objective, solution and gap are filled in;
otherwise all three are `None`. -/
def GurobiSolver.solve (code : ℕ) (objVal : ℚ) (sol : List (String × List ℚ))
    (isMIP : Bool) (mipGap : ℚ) (runtime iterCount : ℚ) : SolverResult :=
  let status := statusMap code
  if status = "optimal" then
    ⟨status, some objVal, some sol, runtime, some iterCount,
      some (if isMIP then mipGap else 0)⟩
  else
    ⟨status, none, none, runtime, some iterCount, none⟩

/-! ## Concrete instances used by the theorems -/

/-- Two buses joined by one branch: bus 0 carries a 100 MW generator, bus 1
a 60 MW load.  A tree, so `OperationalSubproblem.__init__` runs. -/
def c1net : Network := ⟨2, [⟨0, 1, 100, 1⟩]⟩

/-- Parameters for `c1net`: one generator at bus 0 (`A_g`), no storage, one
load at bus 1 (`A_d`), zero ramp and emission factors, defaults
`η = 0.9, γ_es = 0.5, γ_d = 0.15, η_c = 1`. -/
def c1params : OperationalParameters :=
  ⟨[100], [], [], [100], [0], [0], [[1], [0]], [[], []], [[0], [1]],
   9/10, 1/2, 3/20, 1⟩

/-- One period, generation cost 10, availability 1, demand 60, shedding
penalty 100, violation penalty 20 (both positive; the smallness keeps the
kernel evaluation cheap). -/
def c1scen : ScenarioData := ⟨[[10]], [[1]], [[60]], 100, 20⟩

/-- The subproblem `__init__` constructs on `c1net` at `x̂_br = [0]`:
`PTDF = [[1]]`, `LODF = [[0]]`, no contingencies. -/
def c1sub : OperationalSubproblem := ⟨c1net, c1params, c1scen, [0], [], [[1]], [[0]]⟩

/-- The zero capacity decision for `c1net`'s dimensions. -/
def c1x : CapacityDecision := CapacityDecision.zeros ⟨1, 0, 1, 1⟩

/-- No HVDC lines: `A_dc` is the n×0 matrix. -/
def c1adc : List (List ℚ) := [[], []]

/-- A feasible point of the `c1` LP: everything zero except the reserve
`r_g = 9` needed for `γ_d · Σ p_d = 9`. -/
def c1assign : OpAssignment :=
  ⟨fun _ _ => 0, fun _ _ => 9, fun _ _ => 0, fun _ _ => 0, fun _ _ => 0,
   fun _ _ => 0, fun _ _ => 0, fun _ _ => 0, fun _ _ => 0, fun _ _ => 0,
   fun _ => 0⟩

/-- The path `0 − 1 − 2` (a tree, so the power-transfer kernel runs), both
branches rated 10 MW with unit impedance. -/
def pathNet : Network := ⟨3, [⟨0, 1, 10, 1⟩, ⟨1, 2, 10, 1⟩]⟩

/-- One scenario, one period, injections `(0, 0, 30)` at the three buses. -/
def c5pni : List (List (List ℚ)) := [[[0, 0, 30]]]

/-- Parameters for `pathNet` subproblems: one generator at bus 0, one load
at bus 2, `η_c = 1`. -/
def c7params : OperationalParameters :=
  ⟨[50], [], [], [10, 10], [0], [0], [[1], [0], [0]], [[], [], []],
   [[0], [0], [1]], 9/10, 1/2, 3/20, 1⟩

/-- One period, cost 10, availability 1, demand 20, small positive
penalties. -/
def c7scen : ScenarioData := ⟨[[10]], [[1]], [[20]], 100, 20⟩

/-- The subproblem `__init__` constructs on `pathNet` at `x̂_br = [0, 0]`
with the single contingency `(t, i, j) = (0, 0, 1)`:
`PTDF = [[1,0],[1,1]]`, `LODF = [[0,-1],[0,0]]`. -/
def c7sub : OperationalSubproblem :=
  ⟨pathNet, c7params, c7scen, [0, 0], [(0, 0, 1)], [[1, 0], [1, 1]],
   [[0, -1], [0, 0]]⟩

/-- The zero capacity decision for `pathNet`'s dimensions. -/
def c7x : CapacityDecision := CapacityDecision.zeros ⟨1, 0, 2, 1⟩

/-- A primal point with `p_br[0] = 5`, `p_br[1] = 3` and zero slack. -/
def c7v : OpAssignment :=
  ⟨fun _ _ => 0, fun _ _ => 0, fun _ _ => 0, fun _ _ => 0, fun _ _ => 0,
   fun _ _ => 0, fun _ _ => 0, fun _ j => if j = 0 then 5 else 3,
   fun _ _ => 0, fun _ _ => 0, fun _ => 0⟩

/-- The triangle's incidence matrix (edges `0→1`, `1→2`, `0→2`). -/
def triIncidence : List (List ℚ) := [[-1, 0, -1], [1, -1, 0], [0, 1, 1]]

/-- The oracle standing for `solve_shortest_cycle_ip` on the triangle: it
returns `[0, 0, 1]`, the only point of the IP's feasible set (see
`triangle_ip_unique`), hence what any correct solver returns. -/
def triOracle : List (List ℚ) → ℕ → Option (List ℚ) := fun _ _ => some [0, 0, 1]

/-- A two-bus network whose single branch is a bridge (a spur). -/
def spurNet : Network := ⟨2, [⟨0, 1, 5, 1⟩]⟩

/-- A 3-bus triangle: the smallest meshed network (`b = 3 ≠ n - 1 = 2`). -/
def triangleNet : Network :=
  ⟨3, [⟨0, 1, 50, 1⟩, ⟨1, 2, 50, 1⟩, ⟨0, 2, 50, 1⟩]⟩

/-- Dimensions `(G, S, b, |Ω|) = (1, 1, 1, 1)` for the bundle runs. -/
def cexDims : CapacityDims := ⟨1, 1, 1, 1⟩

/-- Zero investment costs. -/
def cexCosts : InvestmentCosts := ⟨[0], [0], [0], [0], [0]⟩

/-- A subproblem oracle: the single scenario's LP always reports `optimal`
with objective `1/2`. -/
def cexOracle : ℕ → List SubOutcome := fun _ => [SubOutcome.optimal (1/2)]

/-! ## Theorems

The claim theorems (with their witnesses and counterexamples) follow; all
definitions are above. -/

/-- **C3.** The claim says `identify_non_islanding_branches` returns exactly
the non-bridge branch indices.  On the two-bus spur network the single
branch is a bridge (its removal leaves bus 1 unreachable), yet the stub
returns it: the returned list is `[0]` while branch `0` is a bridge, so the
claimed equivalence fails.  (`identify_non_islanding_branches` is
`list(range(self.b))` with the connectivity check left as a TODO.) -/
theorem non_islanding_stub_returns_bridge :
    Network.identify_non_islanding_branches spurNet = [0] ∧
    spurNet.isBridge 0 = true := by decide

/-- **C6.** The claim describes the LODF entries the PTDF/LODF kernel
computes.  On the triangle — the smallest meshed network, and connected —
`compute_power_transfer_matrices` (and the in-class copy used by
`OperationalSubproblem.__init__`) evaluates `A_r.T @ B @ A_r` with `A_r` of
shape `(n−1, b)`; for `b ≠ n−1` that product is dimensionally invalid, numpy
raises `ValueError`, and the `except np.linalg.LinAlgError` clause does not
catch it, so no LODF entry is ever computed (`none` embeds the crash). -/
theorem ptm_crashes_on_meshed_network :
    compute_power_transfer_matrices triangleNet [0, 0, 0] = none ∧
    OperationalSubproblem.computePTM triangleNet [0, 0, 0] = none ∧
    connectedWithout triangleNet none = true ∧
    triangleNet.n ≠ triangleNet.b + 1 := by decide

set_option maxRecDepth 20000 in
/-- **C5.** The claim says `transmission_correction_rtep` returns, for each
branch, the ⌈c_br[i]/(η_c·c_vio)⌉-th largest contingency-violation
magnitude projected into `[x_lb[i], x_br_max[i]]`.  On the path network
with injections `(0,0,30)`, `c_br = [1,1]`, `η_c = c_vio = 1` (so the claim
selects the 1st largest), branch 0 has the single violation magnitude
`δ = 20` and `x_lb = 0`: the claimed optimum is `20`, but the source indexes
the descending sort at `int(np.ceil(r))` — a 0-based position, i.e. the
(⌈r⌉+1)-th largest, out of range here — and returns `0`. -/
theorem rtep_selection_off_by_one :
    transmission_correction_rtep pathNet c5pni [0, 0] 1 (some [1, 1]) 1 = some [0, 20] ∧
    transmission_correction_rtep_spec pathNet c5pni [0, 0] 1 (some [1, 1]) 1 = some [20, 20] ∧
    (0 : ℚ) ≠ 20 := by with_unfolding_all decide

set_option maxRecDepth 20000 in
/-- **C2.** The claim says every row of the cycle-basis matrix `D` is a
closed cycle (`D·Aᵀ = 0` row-wise).  On the triangle, the DFS takes branches
0 and 1 as the spanning tree, and the TODO stub of
`compute_fundamental_cycle_basis` marks only the non-tree branch 2 instead
of closing the cycle through the tree; the improvement IP cannot repair
this (its unique feasible point over the stub basis is `[0,0,1]` — the
oracle below returns exactly that point, as any sound solver must — see the
third conjunct), so `compute_minimal_cycle_basis` returns `D = [[0,0,1]]`
with `D·Aᵀ = [[-1,0,1]] ≠ 0`. -/
theorem cycle_basis_row_not_a_cycle :
    compute_minimal_cycle_basis triIncidence none triOracle = some [[0, 0, 1]] ∧
    matMul [[0, 0, 1]] (transposeL triIncidence) = [[-1, 0, 1]] ∧
    ∀ w u v, ipFeasible [[0, 0, 1]] 0 w u v → v = [0, 0, 1] := by
  refine ⟨by with_unfolding_all decide, by with_unfolding_all decide, ?_⟩
  intro w u v hf
  obtain ⟨hwl, hw01, hul, hvl, hv01, hw0, heq⟩ := hf
  obtain ⟨w0, rfl⟩ := List.length_eq_one.mp hwl
  have hw1 : w0 = 1 := by simpa [vget] using hw0
  subst hw1
  rcases v with _ | ⟨v0, v⟩
  · simp [ncols] at hvl
  rcases v with _ | ⟨v1, v⟩
  · simp [ncols] at hvl
  rcases v with _ | ⟨v2, v⟩
  · simp [ncols] at hvl
  rcases v with _ | ⟨v3, v⟩
  swap
  · simp [ncols] at hvl
  have h0 := heq 0 (by norm_num [ncols])
  have h1 := heq 1 (by norm_num [ncols])
  have h2 := heq 2 (by norm_num [ncols])
  simp only [dotL, mcol, vget, List.getD, List.map, List.zipWith, List.sum_cons,
    List.sum_nil, List.get?, Option.getD_some] at h0 h1 h2
  norm_num at h0 h1 h2
  have hv0 : v0 = 0 := by
    rcases hv01 v0 (by simp) with h | h
    · exact h
    · exfalso
      rw [h] at h0
      have hq : (2 : ℚ) * ((u[0]?.getD 0 : ℤ) : ℚ) = -1 := by linarith
      have hz : (2 * u[0]?.getD 0 : ℤ) = -1 := by exact_mod_cast hq
      omega
  have hv1 : v1 = 0 := by
    rcases hv01 v1 (by simp) with h | h
    · exact h
    · exfalso
      rw [h] at h1
      have hq : (2 : ℚ) * ((u[1]?.getD 0 : ℤ) : ℚ) = -1 := by linarith
      have hz : (2 * u[1]?.getD 0 : ℤ) = -1 := by exact_mod_cast hq
      omega
  have hv2 : v2 = 1 := by
    rcases hv01 v2 (by simp) with h | h
    · exfalso
      rw [h] at h2
      have hq : (2 : ℚ) * ((u[2]?.getD 0 : ℤ) : ℚ) = 1 := by linarith
      have hz : (2 * u[2]?.getD 0 : ℤ) = 1 := by exact_mod_cast hq
      omega
    · exact h
  simp [hv0, hv1, hv2]

/-- **C9.** The claim says an infeasible scenario LP yields a cost of +∞ and
a feasibility cut derived from a Farkas infeasibility certificate.  The
source instead records the finite constant `1e12` with the all-zero stub
subgradient — no certificate is ever queried (`result.status` is the only
thing inspected) — and the run continues: here the single always-infeasible
scenario produces per-iteration cuts `(1e12, 0-vector)` in the scenario's
cutting-plane list, and the two-iteration run completes both iterations. -/
theorem infeasible_scenario_cut_stub :
    solve_subproblems [SubOutcome.infeasible] cexDims =
      ([1000000000000], [[0, 0, 0, 0, 0]], [0]) ∧
    (BundleMethod.solve (fun _ => [SubOutcome.infeasible]) cexCosts cexDims (1/100) 2).cuts =
      [[(1000000000000, [0, 0, 0, 0, 0]), (1000000000000, [0, 0, 0, 0, 0])]] ∧
    (BundleMethod.solve (fun _ => [SubOutcome.infeasible]) cexCosts cexDims (1/100) 2).history.length = 2 := by
  refine ⟨rfl, ?_⟩
  norm_num [BundleMethod.solve, bundleLoop, solve_subproblems, CapacityDecision.zeros,
    compute_analytic_center, cexCosts, cexDims, InvestmentCosts.calculate_cost,
    solve_master_problem, dotL, CapacityDims.gdim, List.replicate]

set_option maxRecDepth 20000 in
/-- **C4 (counterexample).** The claim says `BundleMethod.solve` stops
before the iteration cap exactly when `(U_k − L_k)/max(|U_k|, 1) < ε`.
With one scenario whose LP reports objective `1/2` at every iteration,
`ε = 3/5` and a cap of 2: at iteration 1 the claimed gap is
`(1/2 − 0)/max(1/2, 1) = 1/2 < 3/5`, so the claim predicts termination at
iteration 1 — but the code computes `(U − L)/U = 1` (it divides by `U_k`,
not by `max(|U_k|, 1)`), never stops, and runs both iterations to the cap. -/
theorem bundle_gap_formula_counterexample :
    relativeGap_spec (1/2) 0 < 3/5 ∧
    (BundleMethod.solve cexOracle cexCosts cexDims (3/5) 2).converged = false ∧
    (BundleMethod.solve cexOracle cexCosts cexDims (3/5) 2).history =
      [(1/2, 0, 1), (1/2, 0, 1)] ∧
    (BundleMethod.solve cexOracle cexCosts cexDims (3/5) 2).U = some (1/2) := by
  with_unfolding_all decide

set_option maxRecDepth 20000 in
/-- **C1.** The claim says every primal returned with status "optimal"
satisfies the nodal balance equation to within 10⁻⁶ MW.  On the two-bus
instance (`__init__` succeeds: first conjunct), `_add_power_flow_constraints`
is a TODO stub that adds only the branch limits, so the LP contains no
nodal balance rows: the point `c1assign` is feasible with objective `0`,
the objective is bounded below by `0` on the feasible set (costs are
positive and `p_g, p_sh ≥ 0`), and *every* optimal primal — every feasible
point of objective ≤ 0 — has `p_g = p_sh = 0` and therefore violates nodal
balance at one of the two buses by at least 30 MW (the 60 MW load cannot
balance).  So whenever the solver returns "optimal" here, the returned
primal breaks the claimed property; the base-case flow-limit half of the
claim does hold (it is the `powerFlowConstraints` conjunct of
`feasible`). -/
theorem operational_lp_lacks_nodal_balance :
    OperationalSubproblem.init c1net c1params c1scen [0] [] = some c1sub ∧
    c1sub.feasible c1x 0 c1assign ∧
    c1sub.objective c1assign = 0 ∧
    ∀ v : OpAssignment, c1sub.feasible c1x 0 v → c1sub.objective v ≤ 0 →
      ¬ nodalBalanceOk c1sub c1adc v := by
  refine ⟨by with_unfolding_all decide,
    ⟨by unfold OperationalSubproblem.varBounds; with_unfolding_all decide,
     by unfold OperationalSubproblem.genConstraints; with_unfolding_all decide,
     by unfold OperationalSubproblem.storageConstraints; with_unfolding_all decide,
     by unfold OperationalSubproblem.reserveConstraints; with_unfolding_all decide,
     by unfold OperationalSubproblem.powerFlowConstraints; with_unfolding_all decide,
     by
      unfold OperationalSubproblem.contingencyConstraints
        OperationalSubproblem.contingencyRowPair OperationalSubproblem.postContingencyFlow
      with_unfolding_all decide⟩,
    by with_unfolding_all decide, ?_⟩
  intro v hf hobj hbal
  obtain ⟨hvb, -, -, -, -, -⟩ := hf
  obtain ⟨hb1, -, hb3, -⟩ := hvb
  have hpg := (hb1 0 (by decide) 0 (by decide)).1
  have hpsh := hb3 0 (by decide) 0 (by decide)
  have hobj' : 10 * v.p_g 0 0 + 100 * v.p_sh 0 0 ≤ 0 := by
    simpa [OperationalSubproblem.objective, OperationalSubproblem.T,
      OperationalSubproblem.G, OperationalSubproblem.D, c1sub, c1scen, mget, ncols,
      List.range_succ] using hobj
  have hg0 : v.p_g 0 0 = 0 := by linarith
  have hs0 : v.p_sh 0 0 = 0 := by linarith
  have h0 := hbal 0 (by decide) 0 (by decide)
  have h1 := hbal 0 (by decide) 1 (by decide)
  norm_num [nodalBalanceResidual, OperationalSubproblem.G, OperationalSubproblem.S,
    OperationalSubproblem.D, c1sub, c1params, c1scen, c1net, c1adc, Network.A_br,
    Network.b, mget, ncols, List.range_succ, List.range_zero,
    hg0, hs0, abs_le] at h0 h1
  linarith [h0.1, h0.2, h1.1, h1.2]

/-- **C7.** For every triple `(t, i, j)` in the contingency set of a
successfully constructed subproblem, the two rows
`_add_contingency_constraints` generates are, together, exactly the
two-sided constraint `|p_br[t,i] + Λ[i,j]·p_br[t,j]| ≤
η_c·(w_br[i] + x_br[i]) + s_c[t,i,j]` (first conjunct); the slack is
non-negative at every feasible point (second conjunct, from the `lb=0`
variable bound); and the `Λ` appearing in the rows is the one
`__init__` computed at the impedance-defining capacity `x̂_br` — the third
conjunct pins `(sub.PTDF, sub.LODF)` to `computePTM net x̂_br`, while the
decision `x` (universally quantified here) enters only the rating side. -/
theorem contingency_rows_two_sided_at_xhat
    (net : Network) (params : OperationalParameters) (scen : ScenarioData)
    (x_hat : List ℚ) (conts : List (ℕ × ℕ × ℕ)) (sub : OperationalSubproblem)
    (hinit : OperationalSubproblem.init net params scen x_hat conts = some sub)
    (x : CapacityDecision) (x_em : ℚ) (v : OpAssignment) (t i j : ℕ)
    (hmem : (t, i, j) ∈ conts) :
    (sub.contingencyRowPair x v t i j ↔
      |sub.postContingencyFlow v t i j| ≤
        sub.params.eta_c * (vget sub.params.w_br i + vget x.x_br i) + v.s_c (t, i, j)) ∧
    (sub.feasible x x_em v → 0 ≤ v.s_c (t, i, j)) ∧
    OperationalSubproblem.computePTM net x_hat = some (sub.PTDF, sub.LODF) := by
  unfold OperationalSubproblem.init at hinit
  cases hptm : OperationalSubproblem.computePTM net x_hat with
  | none => rw [hptm] at hinit; exact absurd hinit (by simp)
  | some pl =>
    rw [hptm] at hinit
    obtain ⟨ptdf, lodf⟩ := pl
    obtain rfl := (Option.some.inj hinit).symm
    refine ⟨?_, ?_, rfl⟩
    · simp only [OperationalSubproblem.contingencyRowPair]
      rw [abs_le]
      constructor
      · rintro ⟨ha, hb⟩
        exact ⟨by linarith, by linarith⟩
      · rintro ⟨ha, hb⟩
        exact ⟨by linarith, by linarith⟩
    · intro hfeas
      exact hfeas.1.2.2.2 (t, i, j) hmem

/-- Witness for C7: the path-network subproblem `c7sub` with contingency
`(0, 0, 1)`, the zero decision, and a primal with `p_br = (5, 3)`. -/
theorem contingency_rows_witness :
    (c7sub.contingencyRowPair c7x c7v 0 0 1 ↔
      |c7sub.postContingencyFlow c7v 0 0 1| ≤
        c7sub.params.eta_c * (vget c7sub.params.w_br 0 + vget c7x.x_br 0) + c7v.s_c (0, 0, 1)) ∧
    (c7sub.feasible c7x 0 c7v → 0 ≤ c7v.s_c (0, 0, 1)) ∧
    OperationalSubproblem.computePTM pathNet [0, 0] = some (c7sub.PTDF, c7sub.LODF) :=
  contingency_rows_two_sided_at_xhat pathNet c7params c7scen [0, 0] [(0, 0, 1)] c7sub
    (by with_unfolding_all decide) c7x 0 c7v 0 0 1 (by decide)

/-- The `for` loop of `iterative_transmission_correction` runs to the cap
when no iteration's relative change passes the tolerance test, returning the
last iterate with a `False` converged flag. -/
theorem iterCorr_runs_to_cap (net : Network) (pni : List (List (List ℚ))) :
    ∀ (maxIter : ℕ) (seq : ℕ → List ℚ) (tol : ℚ),
    (∀ k, transmission_correction_rtep net pni (seq k) 1 none 2000 = some (seq (k + 1))) →
    (∀ k < maxIter, ¬ relChange (seq (k + 1)) (seq k) < (tol : ℝ)) →
    iterative_transmission_correction net pni (seq 0) maxIter tol = some (seq maxIter, false) := by
  intro maxIter
  induction maxIter with
  | zero => intro seq tol _ _; rfl
  | succ m ih =>
    intro seq tol hstep hstop
    rw [iterative_transmission_correction, hstep 0]
    dsimp only
    rw [if_neg (hstop 0 (Nat.succ_pos m))]
    exact ih (fun k => seq (k + 1)) tol (fun k => hstep (k + 1))
      (fun k hk => hstop (k + 1) (by omega))

/-- The `for` loop of `iterative_transmission_correction` returns
`(x_tilde, True)` at the first iteration whose relative change passes the
tolerance test. -/
theorem iterCorr_stops_at_first (net : Network) (pni : List (List (List ℚ))) :
    ∀ (maxIter : ℕ) (seq : ℕ → List ℚ) (tol : ℚ),
    (∀ k, transmission_correction_rtep net pni (seq k) 1 none 2000 = some (seq (k + 1))) →
    ∀ K < maxIter, relChange (seq (K + 1)) (seq K) < (tol : ℝ) →
    (∀ j < K, ¬ relChange (seq (j + 1)) (seq j) < (tol : ℝ)) →
    iterative_transmission_correction net pni (seq 0) maxIter tol = some (seq (K + 1), true) := by
  intro maxIter
  induction maxIter with
  | zero => intro seq tol _ K hK; omega
  | succ m ih =>
    intro seq tol hstep K hK htest hfirst
    cases K with
    | zero =>
      rw [iterative_transmission_correction, hstep 0]
      dsimp only
      rw [if_pos htest]
    | succ K' =>
      rw [iterative_transmission_correction, hstep 0]
      dsimp only
      rw [if_neg (hfirst 0 (Nat.succ_pos K'))]
      exact ih (fun k => seq (k + 1)) tol (fun k => hstep (k + 1)) K' (by omega)
        htest (fun j hj => hfirst (j + 1) (by omega))

/-- **C8.** Along any trajectory `seq` of the fixed-point iteration
(`seq (k+1)` is what `transmission_correction_rtep` returns at `seq k`),
`iterative_transmission_correction` returns `(seq (K+1), True)` at the
first index `K` whose relative change `‖x_new − x̂‖/(1+‖x̂‖)` is strictly
below the tolerance; when no index below the cap passes the test it runs
for exactly `max_iterations` iterations and still returns the last iterate,
flagged `False`.  The defaults are `max_iterations = 10` and `τ = 10⁻³`. -/
theorem iterative_correction_terminates_at_first_test
    (net : Network) (pni : List (List (List ℚ))) (seq : ℕ → List ℚ)
    (maxIter : ℕ) (tol : ℚ)
    (hstep : ∀ k, transmission_correction_rtep net pni (seq k) 1 none 2000 = some (seq (k + 1))) :
    ((∀ k < maxIter, ¬ relChange (seq (k + 1)) (seq k) < (tol : ℝ)) →
      iterative_transmission_correction net pni (seq 0) maxIter tol = some (seq maxIter, false)) ∧
    (∀ K < maxIter, relChange (seq (K + 1)) (seq K) < (tol : ℝ) →
      (∀ j < K, ¬ relChange (seq (j + 1)) (seq j) < (tol : ℝ)) →
      iterative_transmission_correction net pni (seq 0) maxIter tol = some (seq (K + 1), true)) ∧
    iterative_correction_default_max_iterations = 10 ∧
    iterative_correction_default_tolerance = 1/1000 :=
  ⟨fun hstop => iterCorr_runs_to_cap net pni maxIter seq tol hstep hstop,
   fun K hK ht hf => iterCorr_stops_at_first net pni maxIter seq tol hstep K hK ht hf,
   rfl, rfl⟩

/-- Witness for C8: on the path network with zero injections the rtep step
is the constant `[0, 0]`, the relative change at the first iteration is `0`,
and the loop stops there with the `True` flag. -/
theorem iterative_correction_witness :
    iterative_transmission_correction pathNet [[[0, 0, 0]]] [0, 0] 10 (1/1000) =
      some ([0, 0], true) := by
  have hone : transmission_correction_rtep pathNet [[[0, 0, 0]]] [0, 0] 1 none 2000 =
      some [0, 0] := by with_unfolding_all decide
  have htest : relChange [0, 0] [0, 0] < (((1 : ℚ)/1000 : ℚ) : ℝ) := by
    norm_num [relChange, l2norm]
  exact (iterative_correction_terminates_at_first_test pathNet [[[0, 0, 0]]]
    (fun _ => [0, 0]) 10 (1/1000) (fun _ => hone)).2.1 0 (by norm_num) htest
    (fun j hj => absurd hj (by omega))

/-- **C10.** `GurobiSolver.solve` maps the model status through
`status_map` (`2 → optimal`, `3 → infeasible`, `5 → unbounded`,
`4 → inf_or_unbd`, `9 → time_limit`, `7 → iteration_limit`, anything else
`→ unknown`) and fills `objective_value` and `solution` exactly when the
mapped status is `"optimal"`; on every other status both fields are `None`
and a `SolverResult` is still returned. -/
theorem gurobi_solve_status_fields
    (code : ℕ) (objVal : ℚ) (sol : List (String × List ℚ)) (isMIP : Bool)
    (mipGap runtime iterCount : ℚ) :
    ((GurobiSolver.solve code objVal sol isMIP mipGap runtime iterCount).objective_value = none ↔
      (GurobiSolver.solve code objVal sol isMIP mipGap runtime iterCount).status ≠ "optimal") ∧
    ((GurobiSolver.solve code objVal sol isMIP mipGap runtime iterCount).solution = none ↔
      (GurobiSolver.solve code objVal sol isMIP mipGap runtime iterCount).status ≠ "optimal") ∧
    (GurobiSolver.solve code objVal sol isMIP mipGap runtime iterCount).status = statusMap code ∧
    statusMap GRB_OPTIMAL = "optimal" ∧
    statusMap GRB_INFEASIBLE = "infeasible" ∧
    statusMap GRB_UNBOUNDED = "unbounded" ∧
    statusMap GRB_INF_OR_UNBD = "inf_or_unbd" ∧
    statusMap GRB_TIME_LIMIT = "time_limit" ∧
    statusMap GRB_ITERATION_LIMIT = "iteration_limit" ∧
    (code ≠ GRB_OPTIMAL → code ≠ GRB_INFEASIBLE → code ≠ GRB_UNBOUNDED →
      code ≠ GRB_INF_OR_UNBD → code ≠ GRB_TIME_LIMIT → code ≠ GRB_ITERATION_LIMIT →
      statusMap code = "unknown") := by
  have hunk : code ≠ GRB_OPTIMAL → code ≠ GRB_INFEASIBLE → code ≠ GRB_UNBOUNDED →
      code ≠ GRB_INF_OR_UNBD → code ≠ GRB_TIME_LIMIT → code ≠ GRB_ITERATION_LIMIT →
      statusMap code = "unknown" := by
    intro h2 h3 h5 h4 h9 h7
    unfold statusMap
    rw [if_neg h2, if_neg h3, if_neg h5, if_neg h4, if_neg h9, if_neg h7]
  refine ⟨?_, ?_, ?_, rfl, rfl, rfl, rfl, rfl, rfl, hunk⟩ <;>
    by_cases h : statusMap code = "optimal" <;>
    simp [GurobiSolver.solve, h]

/-- Consuming one objective into the running minimum and then shifting the
objective stream agrees with consuming one more step of the original
stream. -/
theorem runMinFrom_shift (U0 : Option ℚ) (g : ℕ → ℚ) :
    ∀ i, runMinFrom (some (runMinFrom U0 g 0)) (fun j => g (j + 1)) i = runMinFrom U0 g (i + 1)
  | 0 => rfl
  | i + 1 => by
    show min (runMinFrom (some (runMinFrom U0 g 0)) (fun j => g (j + 1)) i) (g (i + 1 + 1)) = _
    rw [runMinFrom_shift U0 g i]
    rfl

/-- The shift lemma lifted to the computed gap. -/
theorem gapFrom_shift (U0 : Option ℚ) (g : ℕ → ℚ) (i : ℕ) :
    gapFrom (some (runMinFrom U0 g 0)) (fun j => g (j + 1)) i = gapFrom U0 g (i + 1) := by
  unfold gapFrom
  rw [runMinFrom_shift]

/-- The bundle loop leaves via the convergence `break` exactly when some
iteration within the remaining fuel has its computed gap below `ε`. -/
theorem bundleLoop_converged_iff (oracle : ℕ → List SubOutcome)
    (costs : InvestmentCosts) (d : CapacityDims) (eps : ℚ) :
    ∀ (fuel k : ℕ) (U0 : Option ℚ) (xs : Option CapacityDecision)
      (hist : List (ℚ × ℚ × ℚ)) (cuts : List (List (ℚ × List ℚ))),
    ((bundleLoop oracle costs d eps fuel k (CapacityDecision.zeros d) U0 xs hist cuts).converged = true
      ↔ ∃ i, i < fuel ∧ gapFrom U0 (fun j => bundleIterObjective oracle costs d (k + j)) i < eps) := by
  intro fuel
  induction fuel with
  | zero =>
    intro k U0 xs hist cuts
    simp [bundleLoop]
  | succ m ih =>
    intro k U0 xs hist cuts
    simp only [bundleLoop]
    set f := costs.calculate_cost (CapacityDecision.zeros d) +
        (List.zipWith (· + ·) (solve_subproblems (oracle k) d).1
            (solve_subproblems (oracle k) d).2.2).sum with hf
    set U2 := (match U0 with | none => f | some u => min u f) with hU
    set L := solve_master_problem (CapacityDecision.zeros d) with hL
    set gap := (if 0 < U2 then (U2 - L) / U2 else 0) with hgap
    have hgap_eq : gap = gapFrom U0 (fun j => bundleIterObjective oracle costs d (k + j)) 0 := by
      rw [hgap, hU, hf, hL]
      rfl
    by_cases hstop : gap < eps
    · rw [if_pos hstop]
      refine ⟨fun _ => ⟨0, by omega, ?_⟩, fun _ => rfl⟩
      rw [← hgap_eq]
      exact hstop
    · rw [if_neg hstop]
      rw [show compute_analytic_center d = CapacityDecision.zeros d from rfl]
      rw [ih (k + 1) (some U2) _ _ _]
      have hshift : ∀ i, gapFrom (some U2) (fun j => bundleIterObjective oracle costs d (k + 1 + j)) i
          = gapFrom U0 (fun j => bundleIterObjective oracle costs d (k + j)) (i + 1) := by
        intro i
        have h1 : (fun j => bundleIterObjective oracle costs d (k + 1 + j)) =
            (fun j => bundleIterObjective oracle costs d (k + (j + 1))) := by
          funext j
          congr 1
          omega
        rw [h1]
        have h2 : U2 = runMinFrom U0 (fun j => bundleIterObjective oracle costs d (k + j)) 0 := by
          rw [hU, hf]
          rfl
        rw [h2]
        exact gapFrom_shift U0 _ i
      constructor
      · rintro ⟨i, hi, hlt⟩
        refine ⟨i + 1, by omega, ?_⟩
        rw [← hshift i]
        exact hlt
      · rintro ⟨i, hi, hlt⟩
        cases i with
        | zero => exact absurd hlt (hgap_eq ▸ hstop)
        | succ i2 =>
          refine ⟨i2, by omega, ?_⟩
          rw [hshift i2]
          exact hlt

/-- Once the carried incumbent is the zero decision it stays so: every
later iterate is the stubbed analytic center, i.e. the zero decision. -/
theorem bundleLoop_xstar_zeros (oracle : ℕ → List SubOutcome)
    (costs : InvestmentCosts) (d : CapacityDims) (eps : ℚ) :
    ∀ (fuel k : ℕ) (U0 : Option ℚ) (hist : List (ℚ × ℚ × ℚ))
      (cuts : List (List (ℚ × List ℚ))),
    (bundleLoop oracle costs d eps fuel k (CapacityDecision.zeros d) U0
      (some (CapacityDecision.zeros d)) hist cuts).x_star = some (CapacityDecision.zeros d) := by
  intro fuel
  induction fuel with
  | zero => intro k U0 hist cuts; rfl
  | succ m ih =>
    intro k U0 hist cuts
    simp only [bundleLoop, ite_self]
    split_ifs <;>
      first
        | rfl
        | (rw [show compute_analytic_center d = CapacityDecision.zeros d from rfl]
           exact ih (k + 1) _ _ _)

/-- With at least one iteration, `BundleMethod.solve` returns the zero
decision as its incumbent `x_star` (the first iteration always attains
`U = f` and every iterate is the zero decision). -/
theorem bundle_solve_xstar (oracle : ℕ → List SubOutcome)
    (costs : InvestmentCosts) (d : CapacityDims) (eps : ℚ) :
    ∀ maxIter, 1 ≤ maxIter →
    (BundleMethod.solve oracle costs d eps maxIter).x_star = some (CapacityDecision.zeros d) := by
  intro maxIter h1
  cases maxIter with
  | zero => omega
  | succ m =>
    show (bundleLoop oracle costs d eps (m + 1) 1 (CapacityDecision.zeros d) none none []
      (List.replicate d.nOmega [])).x_star = _
    simp only [bundleLoop, if_true]
    split_ifs <;>
      first
        | rfl
        | (rw [show compute_analytic_center d = CapacityDecision.zeros d from rfl]
           exact bundleLoop_xstar_zeros oracle costs d eps m 2 _ _ _)

/-- **C4 (amended).** `BundleMethod.solve` leaves its loop via the
convergence `break` iff at some iteration `k ≤ max_iterations` the gap the
code computes — `(U_k − L_k)/U_k` when `U_k > 0` and `0` otherwise, with
`L_k = 0` from the stubbed `_solve_master_problem` — is strictly below `ε`;
and on the `break` it returns the incumbent `x_star`, which is the zero
decision because every iterate is the stubbed analytic center.  This
replaces the claimed divisor `max(|U_k|, 1)` by the code's `U_k`-with-
nonpositive-guard rule (see `bundle_gap_formula_counterexample`). -/
theorem bundle_termination_amended (oracle : ℕ → List SubOutcome) (costs : InvestmentCosts)
    (d : CapacityDims) (eps : ℚ) (maxIter : ℕ) :
    ((BundleMethod.solve oracle costs d eps maxIter).converged = true ↔
      ∃ k, 1 ≤ k ∧ k ≤ maxIter ∧ bundleGapCode oracle costs d k < eps) ∧
    ((BundleMethod.solve oracle costs d eps maxIter).converged = true →
      (BundleMethod.solve oracle costs d eps maxIter).x_star = some (CapacityDecision.zeros d)) := by
  constructor
  · rw [show BundleMethod.solve oracle costs d eps maxIter =
      bundleLoop oracle costs d eps maxIter 1 (CapacityDecision.zeros d) none none []
        (List.replicate d.nOmega []) from rfl]
    rw [bundleLoop_converged_iff]
    unfold bundleGapCode
    constructor
    · rintro ⟨i, hi, hlt⟩
      exact ⟨i + 1, by omega, by omega, hlt⟩
    · rintro ⟨k, hk1, hk2, hlt⟩
      refine ⟨k - 1, by omega, ?_⟩
      rw [show (1 : ℕ) = 0 + 1 from rfl] at hlt ⊢
      exact hlt
  · intro hconv
    cases maxIter with
    | zero => simp [BundleMethod.solve, bundleLoop] at hconv
    | succ m => exact bundle_solve_xstar oracle costs d eps (m + 1) (by omega)
